import Mathlib

/-!
Verification of the Research-Pilot specification against the repository.

The repository ships the Next.js frontend (API client, auth context, chat
interface, sidebar, modals); the FastAPI backend that implements the
chunker, vector index, retrieval orchestrator and study-plan scheduler is
not part of the source tree.  Backend components are therefore modelled
from the specification text (each such definition is marked
`Modelled from the spec:`), while the frontend components are embedded
directly from the TypeScript source.

Texts handled by the chunker and by the chat input are modelled as
`List Char`; the JavaScript test `s.trim() === ""` corresponds to an
all-whitespace check on the character list.
-/

namespace ResearchPilot

/-! ## Chunker (spec 4.1) -/

/-- Modelled from the spec: the span computation of the chunker.  `chunk(text,
target_size, overlap)` walks the text left to right producing spans of at
most `target` units; each subsequent span starts `overlap` units before the
end of the previous span so that trailing content is duplicated into the next
chunk.  The boundary-snapping heuristic (preferring sentence/paragraph
boundaries over hard cuts) is abstracted as the hard cut at `target`; the
properties claimed (totality, determinism, reconstruction) do not depend on
where inside the window the cut lands.  `fuel` makes the recursion
structural; `chunkText` supplies enough fuel for the whole text. -/
def chunkSpansAux (target overlap len : Nat) : Nat → Nat → List (Nat × Nat)
  | 0, _ => []
  | fuel + 1, start =>
    if start < len then
      if start + target < len then
        (start, start + target) ::
          chunkSpansAux target overlap len fuel (start + target - overlap)
      else
        [(start, len)]
    else []

/-- The text span `[se.1, se.2)` of `cs`. -/
def extractSpan (cs : List Char) (se : Nat × Nat) : List Char :=
  (cs.drop se.1).take (se.2 - se.1)

/-- Modelled from the spec: `chunk(text, target_size, overlap)`.  Empty or
whitespace-only input yields an empty sequence; otherwise the computed
spans are extracted from the text. -/
def chunkText (cs : List Char) (target overlap : Nat) : List (List Char) :=
  if cs.all Char.isWhitespace then []
  else (chunkSpansAux target overlap cs.length (cs.length + 1) 0).map (extractSpan cs)

/-- Concatenation of chunks with the leading `overlap` units removed from
each of them (used for every chunk after the first). -/
def reconTail (overlap : Nat) (chunks : List (List Char)) : List Char :=
  (chunks.map (fun c => c.drop overlap)).flatten

/-- Concatenating chunk spans minus overlap: the first chunk in full, every
later chunk with its leading `overlap` units (the duplicated trailing
content of its predecessor) removed. -/
def reconstruct (overlap : Nat) : List (List Char) → List Char
  | [] => []
  | c :: rest => c ++ reconTail overlap rest

theorem reconTail_cons (overlap : Nat) (c : List Char) (l : List (List Char)) :
    reconTail overlap (c :: l) = c.drop overlap ++ reconTail overlap l := by
  simp [reconTail]

theorem reconTail_spans (cs : List Char) (target overlap : Nat) (ho : overlap < target) :
    ∀ fuel start, start < cs.length → cs.length - start ≤ fuel →
      reconTail overlap
          ((chunkSpansAux target overlap cs.length fuel start).map (extractSpan cs))
        = cs.drop (start + overlap) := by
  intro fuel
  induction fuel with
  | zero => intro start h1 h2; omega
  | succ n ih =>
    intro start h1 h2
    rw [chunkSpansAux, if_pos h1]
    by_cases h3 : start + target < cs.length
    · rw [if_pos h3]
      have hrec := ih (start + target - overlap) (by omega) (by omega)
      rw [List.map_cons, reconTail_cons, hrec]
      have hdrop : (extractSpan cs (start, start + target)).drop overlap
          = (cs.drop (start + overlap)).take (target - overlap) := by
        show ((cs.drop start).take (start + target - start)).drop overlap = _
        have hst : start + target - start = target := by omega
        rw [hst, List.drop_take target overlap (cs.drop start), List.drop_drop]
      rw [hdrop]
      have h4 : start + target - overlap + overlap = start + target := by omega
      rw [h4]
      have h5 : cs.drop (start + target)
          = (cs.drop (start + overlap)).drop (target - overlap) := by
        rw [List.drop_drop]
        congr 1
        omega
      rw [h5, List.take_append_drop]
    · rw [if_neg h3]
      have hfull : extractSpan cs (start, cs.length) = cs.drop start := by
        show (cs.drop start).take (cs.length - start) = cs.drop start
        apply List.take_of_length_le
        simp
      rw [List.map_singleton, reconTail_cons, hfull]
      have : reconTail overlap ([] : List (List Char)) = [] := by simp [reconTail]
      rw [this, List.append_nil, List.drop_drop]

theorem reconstruct_chunkText (cs : List Char) (target overlap : Nat)
    (ho : overlap < target) (hcs : cs.all Char.isWhitespace = false) :
    reconstruct overlap (chunkText cs target overlap) = cs := by
  have hne : cs ≠ [] := by
    intro h
    rw [h] at hcs
    simp at hcs
  have hlen : 0 < cs.length := List.length_pos.mpr hne
  rw [chunkText, if_neg (by simp [hcs])]
  rw [chunkSpansAux, if_pos hlen]
  by_cases h3 : 0 + target < cs.length
  · rw [if_pos h3]
    rw [List.map_cons, reconstruct, reconTail_spans cs target overlap ho cs.length
      (0 + target - overlap) (by omega) (by omega)]
    have hhead : extractSpan cs (0, 0 + target) = cs.take target := by
      show (cs.drop 0).take (0 + target - 0) = cs.take target
      simp
    rw [hhead]
    have h4 : 0 + target - overlap + overlap = target := by omega
    rw [h4, List.take_append_drop]
  · rw [if_neg h3]
    have hfull : extractSpan cs (0, cs.length) = cs := by
      show (cs.drop 0).take (cs.length - 0) = cs
      simp
    rw [List.map_singleton, reconstruct, hfull]
    have : reconTail overlap ([] : List (List Char)) = [] := by simp [reconTail]
    rw [this, List.append_nil]

/-- C2 counterexample: the reconstruction property of the claim fails as stated.
For the whitespace-only (but non-empty) text `" "`, `chunk` returns the
empty sequence (as spec 4.1 requires), so concatenating the chunk spans
yields the empty text, not the original text. -/
theorem c2_counterexample :
    chunkText [' '] 4 1 = [] ∧ reconstruct 1 (chunkText [' '] 4 1) ≠ [' '] := by
  constructor
  · decide
  · decide

/-- C2 (amended): for every text, chunking with fixed parameters is total
and deterministic (re-running yields an identical sequence), and for every
text containing at least one non-whitespace character, concatenating the
produced chunk spans with the overlap removed reconstructs the text
exactly.  (Whitespace-only texts chunk to the empty sequence by design and
reconstruct to the empty text.) -/
theorem c2_chunk_deterministic_reconstruct (cs : List Char) (target overlap : Nat)
    (ho : overlap < target) (hcs : ∃ c ∈ cs, c.isWhitespace = false) :
    chunkText cs target overlap = chunkText cs target overlap ∧
    reconstruct overlap (chunkText cs target overlap) = cs := by
  refine ⟨rfl, reconstruct_chunkText cs target overlap ho ?_⟩
  obtain ⟨c, hc, hw⟩ := hcs
  rw [List.all_eq_false]
  exact ⟨c, hc, by simp [hw]⟩

/-- Witness for C2 at the text `"abcde"`, target 3, overlap 1: chunks are
`"abc"` and `"cde"`, and reconstruction returns `"abcde"`. -/
theorem c2_witness :
    (1 < 3 ∧ ∃ c ∈ (['a', 'b', 'c', 'd', 'e'] : List Char), c.isWhitespace = false) ∧
    (chunkText ['a', 'b', 'c', 'd', 'e'] 3 1 = chunkText ['a', 'b', 'c', 'd', 'e'] 3 1 ∧
      reconstruct 1 (chunkText ['a', 'b', 'c', 'd', 'e'] 3 1) = ['a', 'b', 'c', 'd', 'e']) :=
  ⟨⟨by decide, by decide⟩,
    c2_chunk_deterministic_reconstruct ['a', 'b', 'c', 'd', 'e'] 3 1 (by decide) (by decide)⟩

/-- C7: every whitespace-only input (including the empty text) chunks to
the empty sequence; `chunkText` is a total function, so no error is
raised. -/
theorem c7_whitespace_empty_chunks (cs : List Char) (target overlap : Nat)
    (h : ∀ c ∈ cs, c.isWhitespace = true) :
    chunkText cs target overlap = [] := by
  rw [chunkText, if_pos]
  exact List.all_eq_true.mpr h

/-- Witness for C7 at the whitespace-only text `" \n\t"`. -/
theorem c7_witness :
    (∀ c ∈ ([' ', '\n', '\t'] : List Char), c.isWhitespace = true) ∧
    chunkText [' ', '\n', '\t'] 5 1 = [] :=
  ⟨by decide, c7_whitespace_empty_chunks [' ', '\n', '\t'] 5 1 (by decide)⟩

/-! ## Vector Index (spec 3, 4.3) -/

/-- Modelled from the spec: an `IndexEntry` is (chunk identifier, vector,
owning-user scope, document identifier); the vector itself only enters the
claims through the similarity score, so entries carry the metadata and the
per-document recency (upload date) used for tie-breaking. -/
structure IndexEntry where
  chunkId : Nat
  owner : Nat
  docId : Nat
  recency : Nat
deriving DecidableEq

/-- Ordering used to sort retrieval results: descending similarity score,
ties broken by most-recent-document-first. -/
def rank (s : IndexEntry → Int) (a b : IndexEntry) : Prop :=
  s b < s a ∨ (s a = s b ∧ b.recency ≤ a.recency)

instance (s : IndexEntry → Int) : DecidableRel (rank s) := by
  intro a b
  unfold rank
  exact inferInstance

instance (s : IndexEntry → Int) : IsTotal IndexEntry (rank s) := by
  constructor
  intro a b
  rcases lt_trichotomy (s a) (s b) with h | h | h
  · exact Or.inr (Or.inl h)
  · rcases Nat.le_total b.recency a.recency with hr | hr
    · exact Or.inl (Or.inr ⟨h, hr⟩)
    · exact Or.inr (Or.inr ⟨h.symm, hr⟩)
  · exact Or.inl (Or.inl h)

instance (s : IndexEntry → Int) : IsTrans IndexEntry (rank s) := by
  constructor
  intro a b c hab hbc
  rcases hab with h1 | ⟨h1, h1r⟩ <;> rcases hbc with h2 | ⟨h2, h2r⟩
  · exact Or.inl (h2.trans h1)
  · exact Or.inl (by omega)
  · exact Or.inl (by omega)
  · exact Or.inr ⟨h1.trans h2, h2r.trans h1r⟩

/-- Modelled from the spec: `query(vector, k, scope)` of the Vector Index.
Searching outside the scope of the requesting user is a programming error and is
rejected (`ScopeViolation`); otherwise the index entries are restricted to
the owner of the scope, sorted descending by similarity score with recency
tie-break, and the top `k` (defaulting to 5 and clamped to
`[1, index size]`) are returned.  The similarity function `s` abstracts the
cosine score of the stored vector against the query vector. -/
def query (entries : List IndexEntry) (requester scope : Nat)
    (s : IndexEntry → Int) (k : Option Nat) : Except String (List IndexEntry) :=
  if scope = requester then
    let pool := entries.filter (fun e => decide (e.owner = scope))
    let keff := min (max (k.getD 5) 1) pool.length
    Except.ok ((List.insertionSort (rank s) pool).take keff)
  else
    Except.error "ScopeViolation"

theorem query_mem_owner (entries : List IndexEntry) (u : Nat)
    (s : IndexEntry → Int) (k : Option Nat) (res : List IndexEntry)
    (hq : query entries u u s k = Except.ok res) :
    ∀ e ∈ res, e.owner = u := by
  intro e he
  rw [query, if_pos rfl] at hq
  have hres := Except.ok.inj hq
  rw [← hres] at he
  have h1 : e ∈ List.insertionSort (rank s)
      (entries.filter (fun e => decide (e.owner = u))) :=
    List.mem_of_mem_take he
  have h2 : e ∈ entries.filter (fun e => decide (e.owner = u)) :=
    (List.mem_insertionSort (rank s)).mp h1
  have h3 := (List.mem_filter.mp h2).2
  exact of_decide_eq_true h3

/-- C1: scope isolation.  A query issued as user `u1` only ever returns
entries owned by `u1`, so for any other user `u2` no returned entry is owned
by `u2`; and a query whose scope is a different user than the requester is
rejected with a `ScopeViolation` instead of searching. -/
theorem c1_scope_isolation (entries : List IndexEntry) (u1 u2 : Nat)
    (s : IndexEntry → Int) (k : Option Nat) (h : u1 ≠ u2) :
    (∀ res, query entries u1 u1 s k = Except.ok res → ∀ e ∈ res, e.owner ≠ u2) ∧
    query entries u1 u2 s k = Except.error "ScopeViolation" := by
  constructor
  · intro res hq e he
    rw [query_mem_owner entries u1 s k res hq e he]
    exact h
  · rw [query, if_neg (fun hc => h hc.symm)]

/-- Witness for C1: a two-user index where user 1 holds one entry and user
2 another; the query as user 1 returns no entry of user 2, and the
cross-scope query is rejected. -/
theorem c1_witness :
    (1 : Nat) ≠ 2 ∧
    ((∀ res, query [⟨0, 1, 10, 0⟩, ⟨1, 2, 20, 0⟩] 1 1 (fun _ => 0) none = Except.ok res →
        ∀ e ∈ res, e.owner ≠ 2) ∧
      query [⟨0, 1, 10, 0⟩, ⟨1, 2, 20, 0⟩] 1 2 (fun _ => 0) none =
        Except.error "ScopeViolation") :=
  ⟨by decide, c1_scope_isolation [⟨0, 1, 10, 0⟩, ⟨1, 2, 20, 0⟩] 1 2 (fun _ => 0) none
    (by decide)⟩

/-- C3: for a fixed index and query vector (similarity function), a
successful in-scope query returns a result sorted descending by score with
ties broken by most-recent-document-first, whose length is `k` (defaulting
to 5) clamped to `[1, size]` of the per-user index. -/
theorem c3_ordering_and_clamp (entries : List IndexEntry) (u : Nat)
    (s : IndexEntry → Int) (k : Option Nat)
    (hpool : 0 < (entries.filter (fun e => decide (e.owner = u))).length) :
    ∃ res, query entries u u s k = Except.ok res ∧
      List.Sorted (rank s) res ∧
      res.length = min (max (k.getD 5) 1)
        (entries.filter (fun e => decide (e.owner = u))).length ∧
      1 ≤ res.length ∧
      res.length ≤ (entries.filter (fun e => decide (e.owner = u))).length := by
  rw [query, if_pos rfl]
  refine ⟨_, rfl, ?_, ?_, ?_, ?_⟩
  · exact (List.sorted_insertionSort (rank s) _).sublist
      (List.take_sublist _ _)
  · rw [List.length_take, List.length_insertionSort, min_assoc, min_self]
  · rw [List.length_take, List.length_insertionSort]
    have h1 : 1 ≤ max (k.getD 5) 1 := le_max_right _ 1
    exact Nat.le_min.mpr ⟨Nat.le_min.mpr ⟨h1, hpool⟩, hpool⟩
  · rw [List.length_take, List.length_insertionSort]
    exact min_le_right _ _

/-- Witness for C3: a three-entry single-user index with distinct scores;
the default `k` is clamped to the index size 3. -/
theorem c3_witness :
    0 < (([⟨0, 7, 10, 0⟩, ⟨1, 7, 11, 5⟩, ⟨2, 7, 12, 3⟩] : List IndexEntry).filter
        (fun e => decide (e.owner = 7))).length ∧
    (∃ res, query [⟨0, 7, 10, 0⟩, ⟨1, 7, 11, 5⟩, ⟨2, 7, 12, 3⟩] 7 7
          (fun e => (e.recency : Int)) none = Except.ok res ∧
        List.Sorted (rank (fun e => (e.recency : Int))) res ∧
        res.length = min (max ((none : Option Nat).getD 5) 1)
          (([⟨0, 7, 10, 0⟩, ⟨1, 7, 11, 5⟩, ⟨2, 7, 12, 3⟩] : List IndexEntry).filter
              (fun e => decide (e.owner = 7))).length ∧
        1 ≤ res.length ∧
        res.length ≤ (([⟨0, 7, 10, 0⟩, ⟨1, 7, 11, 5⟩, ⟨2, 7, 12, 3⟩] : List IndexEntry).filter
            (fun e => decide (e.owner = 7))).length) :=
  ⟨by decide, c3_ordering_and_clamp [⟨0, 7, 10, 0⟩, ⟨1, 7, 11, 5⟩, ⟨2, 7, 12, 3⟩] 7
    (fun e => (e.recency : Int)) none (by decide)⟩

/-! ## Study Plan Scheduler (spec 4.5) -/

/-- Modelled from the spec: the per-document input of the scheduler, a document
identifier with its `ComplexityEstimate` (a scalar count of unit study
sessions of effort) and upload date used for tie-breaking. -/
structure SchedDoc where
  id : Nat
  complexity : Nat
  uploadDate : Nat
deriving DecidableEq

/-- Modelled from the spec: the greedy priority key
`document complexity / remaining days`. -/
def docPriority (remainingDays : Nat) (d : SchedDoc) : Nat :=
  d.complexity / remainingDays

/-- Greedy allocation order: increasing priority key, ties broken by upload
recency (newer first). -/
def schedOrder (remainingDays : Nat) (a b : SchedDoc) : Prop :=
  docPriority remainingDays a < docPriority remainingDays b ∨
    (docPriority remainingDays a = docPriority remainingDays b ∧
      b.uploadDate ≤ a.uploadDate)

instance (days : Nat) : DecidableRel (schedOrder days) := by
  intro a b
  unfold schedOrder
  exact inferInstance

/-- The documents in greedy allocation order. -/
def orderedDocs (docs : List SchedDoc) (remainingDays : Nat) : List SchedDoc :=
  List.insertionSort (schedOrder remainingDays) docs

/-- One unit session per complexity unit of each document, in allocation
order; a session is recorded by its target document identifier. -/
def mkSessions : List SchedDoc → List Nat
  | [] => []
  | d :: ds => List.replicate d.complexity d.id ++ mkSessions ds

/-- Total complexity-weighted effort of a document set, in unit sessions. -/
def totalEffort (docs : List SchedDoc) : Nat :=
  (docs.map (fun d => d.complexity)).sum

/-- Sessions are packed greedily onto days `1, 2, …` with `perDay` sessions
per day: the session at position `i` (0-based) runs on day `i / perDay + 1`.
Each scheduled session is (target document identifier, day). -/
def assignDaysAux (perDay : Nat) : List Nat → Nat → List (Nat × Nat)
  | [], _ => []
  | d :: rest, i => (d, i / perDay + 1) :: assignDaysAux perDay rest (i + 1)

/-- Modelled from the spec: the Study Plan Scheduler.  Documents are sorted
by the greedy priority key, expanded into unit sessions, and packed onto
days; sessions that would land after the deadline are cut from the plan and
their presence is reported as the `deadline-infeasible` condition alongside
the best-effort partial schedule. -/
def makeSchedule (docs : List SchedDoc) (perDay deadline : Nat) :
    List (Nat × Nat) × Bool :=
  let sessions := assignDaysAux perDay (mkSessions (orderedDocs docs deadline)) 0
  (sessions.filter (fun p => decide (p.2 ≤ deadline)),
    sessions.any (fun p => decide (deadline < p.2)))

theorem mkSessions_length (docs : List SchedDoc) :
    (mkSessions docs).length = totalEffort docs := by
  induction docs with
  | nil => rfl
  | cons d ds ih => simp [mkSessions, totalEffort, List.sum_cons] at ih ⊢; omega

theorem totalEffort_orderedDocs (docs : List SchedDoc) (days : Nat) :
    totalEffort (orderedDocs docs days) = totalEffort docs := by
  unfold totalEffort orderedDocs
  exact ((List.perm_insertionSort (schedOrder days) docs).map (fun d => d.complexity)).sum_eq

theorem assignDaysAux_day_bound (perDay : Nat) :
    ∀ (sessions : List Nat) (i : Nat) (p : Nat × Nat),
      p ∈ assignDaysAux perDay sessions i →
      ∃ j, i ≤ j ∧ j < i + sessions.length ∧ p.2 = j / perDay + 1 := by
  intro sessions
  induction sessions with
  | nil => intro i p hp; simp [assignDaysAux] at hp
  | cons d rest ih =>
    intro i p hp
    rw [assignDaysAux] at hp
    rcases List.mem_cons.mp hp with h | h
    · exact ⟨i, Nat.le_refl i, by simp, by rw [h]⟩
    · obtain ⟨j, hj1, hj2, hj3⟩ := ih (i + 1) p h
      exact ⟨j, by omega, by simp at hj2 ⊢; omega, hj3⟩

theorem makeSchedule_all_days_le (docs : List SchedDoc) (perDay deadline : Nat)
    (hp : 1 ≤ perDay) (hfeas : totalEffort docs ≤ deadline * perDay) :
    ∀ q ∈ assignDaysAux perDay (mkSessions (orderedDocs docs deadline)) 0,
      q.2 ≤ deadline := by
  intro q hq
  obtain ⟨j, _, hj2, hj3⟩ := assignDaysAux_day_bound perDay _ 0 q hq
  rw [mkSessions_length, totalEffort_orderedDocs] at hj2
  have hjlt : j < deadline * perDay := by omega
  have : j / perDay < deadline := (Nat.div_lt_iff_lt_mul hp).mpr hjlt
  omega

/-- C4: scheduler feasibility.  When the total available time before the
deadline (`deadline * perDay` unit sessions) is at least the total
complexity-weighted effort, the produced schedule keeps every session, the
`deadline-infeasible` condition is not reported, and every session —
including the last — ends on or before the deadline. -/
theorem c4_scheduler_feasibility (docs : List SchedDoc) (perDay deadline : Nat)
    (hp : 1 ≤ perDay) (hfeas : totalEffort docs ≤ deadline * perDay) :
    (makeSchedule docs perDay deadline).2 = false ∧
    (makeSchedule docs perDay deadline).1 =
      assignDaysAux perDay (mkSessions (orderedDocs docs deadline)) 0 ∧
    ∀ q ∈ (makeSchedule docs perDay deadline).1, q.2 ≤ deadline := by
  have hall := makeSchedule_all_days_le docs perDay deadline hp hfeas
  refine ⟨?_, ?_, ?_⟩
  · rw [makeSchedule]
    simp only [List.any_eq_false]
    intro p hp'
    simpa using Nat.not_lt.mpr (hall p hp')
  · rw [makeSchedule]
    exact List.filter_eq_self.mpr fun p hp' => by simpa using hall p hp'
  · intro q hq
    rw [makeSchedule] at hq
    exact hall q (List.mem_of_mem_filter hq)

/-- Witness for C4: two documents with complexities 2 and 6, two sessions
per day, deadline in 4 days — total effort 8 equals the available 8
session slots, so the whole plan fits before the deadline. -/
theorem c4_witness :
    (1 ≤ 2 ∧ totalEffort [⟨1, 2, 10⟩, ⟨2, 6, 5⟩] ≤ 4 * 2) ∧
    ((makeSchedule [⟨1, 2, 10⟩, ⟨2, 6, 5⟩] 2 4).2 = false ∧
      (makeSchedule [⟨1, 2, 10⟩, ⟨2, 6, 5⟩] 2 4).1 =
        assignDaysAux 2 (mkSessions (orderedDocs [⟨1, 2, 10⟩, ⟨2, 6, 5⟩] 4)) 0 ∧
      ∀ q ∈ (makeSchedule [⟨1, 2, 10⟩, ⟨2, 6, 5⟩] 2 4).1, q.2 ≤ 4) :=
  ⟨⟨by decide, by decide⟩,
    c4_scheduler_feasibility [⟨1, 2, 10⟩, ⟨2, 6, 5⟩] 2 4 (by decide) (by decide)⟩

/-! ## Retrieval Orchestrator (spec 4.4) and generation failure handling -/

/-- A retrieved chunk as consumed by the orchestrator: its text and the
identifier of its source document. -/
structure RetrievedChunk where
  text : String
  docId : String
deriving DecidableEq

/-- Shape of `QuestionAnswerResponse` from `lib/api.ts`: answer text, the context
chunk texts, and the cited source document identifiers. -/
structure QAResponse where
  answer : String
  context : List String
  sources : List String
deriving DecidableEq

/-- Modelled from the spec: the citations echoed back on success are the
source document identifiers of the chunks actually included in the
assembled prompt, each listed once. -/
def citationsOf (included : List RetrievedChunk) : List String :=
  (included.map (fun c => c.docId)).dedup

/-- Modelled from the spec: the successful orchestrator response assembled
from the chunks included in the prompt — the answer text, the chunk texts
as context, and the deduplicated source identifiers as citations.  Per the
truncation priority, retrieved evidence is never dropped from the prompt,
so all retrieved chunks are included. -/
def answerWithCitations (included : List RetrievedChunk) (answer : String) : QAResponse :=
  { answer := answer
    context := included.map (fun c => c.text)
    sources := citationsOf included }

/-- C6: the citations of a successful answer are exactly the source
document identifiers of the chunks included in the assembled prompt, each
appearing at most once; in the end-to-end example, document `"D"` whose
matching content appears in the two chunks `"A. B."` and `"B. C."` is cited
exactly once. -/
theorem c6_citations_exact_and_unique :
    (∀ (included : List RetrievedChunk) (a : String),
      (answerWithCitations included a).sources.Nodup ∧
      ∀ d, d ∈ (answerWithCitations included a).sources ↔
        ∃ c ∈ included, c.docId = d) ∧
    (answerWithCitations [⟨"A. B.", "D"⟩, ⟨"B. C.", "D"⟩] "B is …").sources = ["D"] ∧
    (answerWithCitations [⟨"A. B.", "D"⟩, ⟨"B. C.", "D"⟩] "B is …").sources.count "D" = 1 := by
  refine ⟨fun included a => ⟨List.nodup_dedup _, fun d => ?_⟩, by decide, by decide⟩
  rw [answerWithCitations]
  simp only [citationsOf, List.mem_dedup, List.mem_map]

/-- Outcome of the language-model generation step. -/
inductive GenOutcome where
  | answered (text : String)
  | failed (citations : List String)
deriving DecidableEq

/-- Modelled from the spec: backend timeout or error is retried once with
backoff; a second failure surfaces `GenerationFailed` with the retrieved
citations still attached.  The backend is a function from attempt number to
its result; the second component of the pair counts the backend calls made (the
backoff delay between them is a timing concern outside the model). -/
def generateWithRetry (backend : Nat → Except String String)
    (citations : List String) : GenOutcome × Nat :=
  match backend 0 with
  | Except.ok a => (GenOutcome.answered a, 1)
  | Except.error _ =>
    match backend 1 with
    | Except.ok a => (GenOutcome.answered a, 2)
    | Except.error _ => (GenOutcome.failed citations, 2)

/-- A conversation turn as persisted: question, optional answer text,
citations, and the error marker. -/
structure Turn where
  question : String
  answer : Option String
  citations : List String
  isError : Bool
deriving DecidableEq

/-- Modelled from the spec: the turn is appended to conversation history;
a failed generation is recorded with an error marker and no answer text. -/
def recordTurn (hist : List Turn) (q : String) (out : GenOutcome) : List Turn :=
  match out with
  | GenOutcome.answered a => hist ++ [⟨q, some a, [], false⟩]
  | GenOutcome.failed cits => hist ++ [⟨q, none, cits, true⟩]

/-! ## Frontend embeddings (`lib/api.ts`, `components/chat-interface.tsx`) -/

/-- The `ApiClient` token state (`lib/api.ts`): the bearer token, if any. -/
structure ApiState where
  token : Option String
deriving DecidableEq

/-- Embedding of `ApiClient.removeToken`: clears the stored token. -/
def removeToken (_ : ApiState) : ApiState :=
  { token := none }

/-- Embedding of `ApiClient.isAuthenticated`: true exactly when a token is stored. -/
def isAuthenticated (st : ApiState) : Bool :=
  st.token.isSome

/-- An HTTP response as seen by `ApiClient.request`: status code, JSON
body on success, optional error `detail`. -/
structure HttpResponse where
  status : Nat
  body : String
  detail : Option String
deriving DecidableEq

/-- The `response.ok` field of a `fetch` response: status in the range 200–299. -/
def responseOk (r : HttpResponse) : Bool :=
  decide (200 ≤ r.status) && decide (r.status < 300)

/-- Embedding of `ApiClient.request` (`lib/api.ts` lines 141–180): on a non-ok response
the token is removed when the status is 401, and the error detail (or a
generic message) is thrown; on an ok response the body is returned and the
token is untouched. -/
def request (st : ApiState) (r : HttpResponse) : ApiState × Except String String :=
  if responseOk r then
    (st, Except.ok r.body)
  else
    let st' := if r.status = 401 then removeToken st else st
    (st', Except.error (r.detail.getD ("HTTP error! status: " ++ toString r.status)))

/-- C9: a 401 response clears the stored token — `isAuthenticated` is false
on the resulting state paired with the thrown error — while any other error
response leaves the token unchanged; in both cases an error is thrown. -/
theorem c9_unauthorized_clears_token (st : ApiState) (r : HttpResponse)
    (herr : responseOk r = false) :
    (r.status = 401 →
      (request st r).1.token = none ∧
      isAuthenticated (request st r).1 = false ∧
      ∃ m, (request st r).2 = Except.error m) ∧
    (r.status ≠ 401 →
      (request st r).1 = st ∧
      ∃ m, (request st r).2 = Except.error m) := by
  rw [request, if_neg (by simp [herr])]
  constructor
  · intro h401
    rw [if_pos h401]
    exact ⟨rfl, rfl, _, rfl⟩
  · intro hne
    rw [if_neg hne]
    exact ⟨rfl, _, rfl⟩

/-- Witness for C9: a 401 response against a client holding a token logs
the client out; a 500 response leaves the token in place. -/
theorem c9_witness :
    responseOk ⟨401, "", some "Not authenticated"⟩ = false ∧
    (request ⟨some "tok"⟩ ⟨401, "", some "Not authenticated"⟩).1.token = none ∧
    isAuthenticated (request ⟨some "tok"⟩ ⟨401, "", some "Not authenticated"⟩).1 = false ∧
    (request ⟨some "tok"⟩ ⟨500, "", none⟩).1 = ⟨some "tok"⟩ :=
  ⟨by decide,
    ((c9_unauthorized_clears_token ⟨some "tok"⟩ ⟨401, "", some "Not authenticated"⟩
        (by decide)).1 rfl).1,
    ((c9_unauthorized_clears_token ⟨some "tok"⟩ ⟨401, "", some "Not authenticated"⟩
        (by decide)).1 rfl).2.1,
    ((c9_unauthorized_clears_token ⟨some "tok"⟩ ⟨500, "", none⟩ (by decide)).2
        (by decide)).1⟩

/-- A chat message as kept by `ChatInterface` (`components/chat-interface.tsx`):
identifier, role, content, and cited sources. -/
structure Message where
  id : Nat
  role : String
  content : String
  sources : List String
deriving DecidableEq

/-- The JavaScript guard `!input.trim()` from `handleSendMessage`: the input is
blank iff every character is whitespace. -/
def isBlankInput (s : String) : Bool :=
  s.toList.all Char.isWhitespace

/-- The fixed apology content appended by the catch
branch of `handleSendMessage`. -/
def apologyText : String :=
  "I apologize, but I encountered an error processing your question. Please try again."

/-- Embedding of `handleSendMessage` (`components/chat-interface.tsx` lines 119–162) as
a function of the pre-state and of the `askQuestion` outcome.  It returns
the new message list, the new input value, and whether a request was
issued.  When the input is blank or no chat session exists it returns
immediately; otherwise the user message is appended, the input cleared, and
either the assistant answer (with its sources) or the fixed apology message
(with no sources) is appended. -/
def handleSendMessage (messages : List Message) (input : String)
    (session : Option Nat) (now : Nat) (resp : Except String QAResponse) :
    List Message × String × Bool :=
  if isBlankInput input || session.isNone then
    (messages, input, false)
  else
    match resp with
    | Except.ok r =>
      (messages ++ [⟨now, "user", input, []⟩, ⟨now + 1, "assistant", r.answer, r.sources⟩],
        "", true)
    | Except.error _ =>
      (messages ++ [⟨now, "user", input, []⟩, ⟨now + 1, "assistant", apologyText, []⟩],
        "", true)

/-- C10: with a blank (empty or whitespace-only) input or without a chat
session, `handleSendMessage` issues no request and leaves the message list
and the input state unchanged. -/
theorem c10_send_guard (messages : List Message) (input : String)
    (session : Option Nat) (now : Nat) (resp : Except String QAResponse)
    (h : isBlankInput input = true ∨ session = none) :
    handleSendMessage messages input session now resp = (messages, input, false) := by
  have hc : (isBlankInput input || session.isNone) = true := by
    rcases h with h | h
    · simp [h]
    · simp [h]
  rw [handleSendMessage.eq_def, if_pos hc]

/-- Witness for C10: with no chat session, the send handler is a no-op even
for a non-blank input. -/
theorem c10_witness :
    (isBlankInput "hello" = true ∨ (none : Option Nat) = none) ∧
    handleSendMessage [] "hello" none 0 (Except.error "boom") = ([], "hello", false) :=
  ⟨Or.inr rfl, c10_send_guard [] "hello" none 0 (Except.error "boom") (Or.inr rfl)⟩

/-- C8: when the language-model backend fails, it is called exactly twice —
the original call and one retry — and the second failure yields a
`GenerationFailed` outcome that still carries the retrieved citations; the
conversation turn is recorded append-only with the error marker set and no
answer text; and the chat interface appends a visible assistant turn with
the fixed apology content and no sources, never an answer presented as
grounded.  (The backoff delay between the two calls is a timing property
outside the model.) -/
theorem c8_generation_failure (backend : Nat → Except String String)
    (e0 e1 : String) (cits : List String) (hist : List Turn) (q : String)
    (messages : List Message) (input : String) (sid now : Nat) (emsg : String)
    (hb0 : backend 0 = Except.error e0) (hb1 : backend 1 = Except.error e1)
    (hin : isBlankInput input = false) :
    generateWithRetry backend cits = (GenOutcome.failed cits, 2) ∧
    recordTurn hist q (GenOutcome.failed cits) = hist ++ [⟨q, none, cits, true⟩] ∧
    handleSendMessage messages input (some sid) now (Except.error emsg) =
      (messages ++ [⟨now, "user", input, []⟩, ⟨now + 1, "assistant", apologyText, []⟩],
        "", true) := by
  refine ⟨?_, rfl, ?_⟩
  · rw [generateWithRetry, hb0, hb1]
  · rw [handleSendMessage.eq_def, if_neg (by simp [hin])]

/-- Witness for C8: a backend that times out on both attempts, asked
`"What is B?"` with citation `"D"` on hand. -/
theorem c8_witness :
    ((fun _ : Nat => (Except.error "timeout" : Except String String)) 0 =
        Except.error "timeout" ∧
      isBlankInput "What is B?" = false) ∧
    (generateWithRetry (fun _ => Except.error "timeout") ["D"] =
        (GenOutcome.failed ["D"], 2) ∧
      recordTurn [] "What is B?" (GenOutcome.failed ["D"]) =
        [] ++ [⟨"What is B?", none, ["D"], true⟩] ∧
      handleSendMessage [] "What is B?" (some 1) 0 (Except.error "boom") =
        ([] ++ [⟨0, "user", "What is B?", []⟩, ⟨1, "assistant", apologyText, []⟩],
          "", true)) :=
  ⟨⟨rfl, by decide⟩,
    c8_generation_failure (fun _ => Except.error "timeout") "timeout" "timeout"
      ["D"] [] "What is B?" [] "What is B?" 1 0 "boom" rfl rfl (by decide)⟩

/-! ## Document status handling in the frontend (spec 3 vs the client) -/

/-- Embedding of `getStatusColor` from the paper details modal (in
`components/chat-interface.tsx`, lines 357–368): badge style per document
status. -/
def getStatusColor (status : String) : String :=
  if status = "ready" then "default"
  else if status = "processing" then "secondary"
  else if status = "failed" then "destructive"
  else "secondary"

/-- Gate of the Analyze-in-Chat button in the paper details modal: the
button is disabled whenever the paper status differs from `ready`. -/
def analyzeDisabled (status : String) : Bool :=
  status != "ready"

/-- The badge variant used by the sidebar and the chat header:
`paper.status === "ready" ? "default" : "secondary"`. -/
def statusBadgeVariant (status : String) : String :=
  if status = "ready" then "default" else "secondary"

/-- C5 counterexample: the client code distinguishes the document status
`"ready"` — the only status in which a paper can be analyzed and is badged
as complete — and `"ready"` is not in the claimed state set
`{pending, chunked, indexed, failed}`; every status of the claimed set
(including the terminal success state `indexed`) keeps analysis disabled
and is styled as in-progress. -/
theorem c5_counterexample :
    analyzeDisabled "ready" = false ∧
    statusBadgeVariant "ready" = "default" ∧
    getStatusColor "processing" = "secondary" ∧
    "ready" ∉ (["pending", "chunked", "indexed", "failed"] : List String) ∧
    analyzeDisabled "indexed" = true ∧
    analyzeDisabled "chunked" = true ∧
    analyzeDisabled "pending" = true ∧
    getStatusColor "indexed" = "secondary" ∧
    statusBadgeVariant "indexed" = "secondary" := by
  decide

/-- C5 (amended): the document lifecycle states the client operates on are
`{processing, ready, failed}`: the status badge is styled complete exactly
for `"ready"`, destructive exactly for `"failed"`, and any other status —
`"processing"` included — is styled as in-progress; analysis is enabled
exactly in state `"ready"`. -/
theorem c5_client_status_vocabulary (status : String) :
    (getStatusColor status = "default" ∨ getStatusColor status = "secondary" ∨
      getStatusColor status = "destructive") ∧
    (getStatusColor status = "default" ↔ status = "ready") ∧
    (getStatusColor status = "destructive" ↔ status = "failed") ∧
    (analyzeDisabled status = false ↔ status = "ready") ∧
    (statusBadgeVariant status = "default" ↔ status = "ready") := by
  by_cases h1 : status = "ready"
  · subst h1; decide
  · by_cases h2 : status = "processing"
    · subst h2; decide
    · by_cases h3 : status = "failed"
      · subst h3; decide
      · simp [getStatusColor, analyzeDisabled, statusBadgeVariant, h1, h2, h3]

end ResearchPilot
